import Mathlib

/-!
Shallow embedding of `csv_validate_for_v1/validate_csv_big.py`: the streaming
CSV validator (record validation, header reconciliation, the single pass with
counters, bounded samples, sinks and print budget), together with theorems
checking the natural-language specification against it.
-/

/-- The closed set of per-record error classification tags produced by
`validate_row` (source lines 41-69). -/
inductive ErrCode where
  | fields_count
  | idx_not_int
  | name_empty
  | freq_negative
  | freq_not_int
deriving DecidableEq

/-- All five error kinds, in source order of first possible emission. -/
def allKinds : List ErrCode :=
  [.fields_count, .idx_not_int, .name_empty, .freq_negative, .freq_not_int]

/-- Digits of a Python integer literal after the first digit: ASCII digits with
single underscores allowed between digits (`int("1_0") = 10`, trailing or
doubled underscores rejected). Models the host`s `int()` digit grammar. -/
def pyDigitsRest (acc : Nat) : List Char → Option Nat
  | [] => some acc
  | '_' :: c :: cs =>
      if c.isDigit then pyDigitsRest (acc * 10 + (c.toNat - 48)) cs else none
  | '_' :: [] => none
  | c :: cs =>
      if c.isDigit then pyDigitsRest (acc * 10 + (c.toNat - 48)) cs else none

/-- A nonempty digit sequence (first char must be a digit). -/
def pyDigits : List Char → Option Nat
  | c :: cs => if c.isDigit then pyDigitsRest (c.toNat - 48) cs else none
  | [] => none

/-- Optional sign followed by digits. -/
def pyIntOfChars : List Char → Option Int
  | '+' :: cs => (pyDigits cs).map Int.ofNat
  | '-' :: cs => (pyDigits cs).map (fun n => -(n : Int))
  | cs => (pyDigits cs).map Int.ofNat

/-- Python `str.strip()` on a character list: drop whitespace from both ends. -/
def pyStripChars (cs : List Char) : List Char :=
  ((cs.dropWhile Char.isWhitespace).reverse.dropWhile Char.isWhitespace).reverse

/-- Model of Python `int(s)` on strings: surrounding whitespace is stripped,
then an optional sign and a nonempty digit sequence (with underscore
separators) is parsed; anything else raises, modelled as `none`. -/
def pyInt (s : String) : Option Int :=
  pyIntOfChars (pyStripChars s.toList)

/-- Message for the fields_count classification (source line 47). -/
def msgFieldsCount (ln : Nat) (row : List String) : String :=
  let n := row.length
  s!"Строка {ln}: ожидается 3 поля, получено {n} — {row}"

/-- Message for the idx_not_int classification (source line 55). -/
def msgIdxNotInt (ln : Nat) (v : String) : String :=
  s!"Строка {ln}: Unnamed: 0 не int — {v}"

/-- Message for the name_empty classification (source line 59). -/
def msgNameEmpty (ln : Nat) : String :=
  s!"Строка {ln}: name пустая"

/-- Message for the freq_negative classification (source line 65). -/
def msgFreqNegative (ln : Nat) (v : String) : String :=
  s!"Строка {ln}: frequency < 0 — {v}"

/-- Message for the freq_not_int classification (source line 67). -/
def msgFreqNotInt (ln : Nat) (v : String) : String :=
  s!"Строка {ln}: frequency не int — {v}"

/-- Body of `validate_row` after the three fields have been unpacked
(source lines 49-69): integer check on field 0, non-blank check on field 1,
integer-and-nonnegative check on field 2, in that order. In the source the
negative-frequency `return` sits inside the `try`, but a `return` does not
trigger the `except` clause, so `freq_negative` is only reached when the
parse succeeded. -/
def checkFields (idx_raw name freq_raw : String) (ln : Nat) :
    Option (ErrCode × String) :=
  if (pyInt idx_raw).isNone then
    some (.idx_not_int, msgIdxNotInt ln idx_raw)
  else if pyStripChars name.toList = [] then
    some (.name_empty, msgNameEmpty ln)
  else
    match pyInt freq_raw with
    | some fr =>
        if fr < 0 then some (.freq_negative, msgFreqNegative ln freq_raw)
        else none
    | none => some (.freq_not_int, msgFreqNotInt ln freq_raw)

/-- `validate_row` (source lines 41-69): field-count check first, then the
typed checks on the three fields. `none` models the Python result
`(None, None)` (valid). Field access is via `getD`, which agrees with the
source`s tuple unpacking whenever the length check has passed. -/
def validateRow (row : List String) (ln : Nat) : Option (ErrCode × String) :=
  if row.length ≠ 3 then
    some (.fields_count, msgFieldsCount ln row)
  else
    checkFields (row.getD 0 "") (row.getD 1 "") (row.getD 2 "") ln

/-- Literal embedding of `validate_row` in which the tuple unpacking
`idx_raw, name, freq_raw = row` (source line 49) is fallible: the outer
`none` models the `ValueError` Python would raise if the row did not have
exactly three elements at that point. -/
def validateRowChecked (row : List String) (ln : Nat) :
    Option (Option (ErrCode × String)) :=
  if row.length ≠ 3 then
    some (some (.fields_count, msgFieldsCount ln row))
  else
    match row with
    | [idx_raw, name, freq_raw] => some (checkFields idx_raw name freq_raw ln)
    | _ => none


/-- Association-list lookup for the `err_counts` dict; a missing key counts 0,
matching `err_counts.get(code, 0)` (source line 157). -/
def lookupD : List (ErrCode × Nat) → ErrCode → Nat
  | [], _ => 0
  | (k, v) :: rest, c => if k = c then v else lookupD rest c

/-- `err_counts[code] = err_counts.get(code, 0) + 1` (source line 157) on an
insertion-ordered association list modelling the Python dict. -/
def bump : List (ErrCode × Nat) → ErrCode → List (ErrCode × Nat)
  | [], c => [(c, 1)]
  | (k, v) :: rest, c =>
      if k = c then (k, v + 1) :: rest else (k, v) :: bump rest c

/-- Lookup for the `err_samples` dict. -/
def slookup : List (ErrCode × List String) → ErrCode → Option (List String)
  | [], _ => none
  | (k, v) :: rest, c => if k = c then some v else slookup rest c

/-- Source lines 160-163: ensure the key exists (insertion-ordered dict), then
append the message only while the kind`s sample list is shorter than
`sample_per_type`. -/
def addSample : List (ErrCode × List String) → ErrCode → Nat → String →
    List (ErrCode × List String)
  | [], c, cap, msg => [(c, if 0 < cap then [msg] else [])]
  | (k, v) :: rest, c, cap, msg =>
      if k = c then (k, if v.length < cap then v ++ [msg] else v) :: rest
      else (k, v) :: addSample rest c cap msg

/-- The sample list kept for a kind (empty when the kind never occurred). -/
def samplesOf (l : List (ErrCode × List String)) (c : ErrCode) : List String :=
  (slookup l c).getD []

/-- One row of the full error log (source line 170): line number, kind,
message, the first three raw fields padded with "", and the raw field count. -/
structure ErrLogRow where
  line_no : Nat
  code : ErrCode
  msg : String
  col0 : String
  col1 : String
  col2 : String
  raw_len : Nat
deriving DecidableEq

/-- The configuration of one run of `validate_csv`: whether each optional sink
is enabled (`out_clean` / `errors_out` truthy), the per-kind sample cap
`sample_per_type` and the global print budget `max_print_errors`.
`progress_every` only controls the progress heartbeat, which touches no state
modelled here, and is omitted. -/
structure Config where
  outClean : Bool
  errorsOut : Bool
  samplePerType : Nat
  maxPrintErrors : Nat

/-- Injected sink I/O failures: `cleanFailAt = some k` makes the write of the
k-th data row to the clean sink raise, `errFailAt = some k` likewise for the
error-log sink. `noFail` models a run with no I/O errors. -/
structure IOFail where
  cleanFailAt : Option Nat
  errFailAt : Option Nat

/-- A run with no injected sink failures. -/
def noFail : IOFail := ⟨none, none⟩

/-- The mutable state of the streaming pass (source lines 122-183): counters,
per-kind counts and samples, the print counter, and the lifecycle and contents
of the two optional sinks. -/
structure PassState where
  total : Nat
  valid : Nat
  errCounts : List (ErrCode × Nat)
  errSamples : List (ErrCode × List String)
  printed : Nat
  cleanOpened : Bool
  cleanHeaders : List (List String)
  cleanRows : List (List String)
  cleanCloses : Nat
  errOpened : Bool
  errHeaderWritten : Bool
  errRows : List ErrLogRow
  errCloses : Nat

/-- State before any sink is opened and before the pass. -/
def initState : PassState :=
  ⟨0, 0, [], [], 0, false, [], [], 0, false, false, [], 0⟩

/-- Source lines 128-140: open the clean-copy sink (writing the expected
header) and the error-log sink (writing its fixed diagnostic header) when
enabled, before the pass begins. -/
def openSinks (cfg : Config) (expectedHeader : List String) (st : PassState) :
    PassState :=
  let st :=
    if cfg.outClean then
      { st with cleanOpened := true,
                cleanHeaders := st.cleanHeaders ++ [expectedHeader] }
    else st
  if cfg.errorsOut then
    { st with errOpened := true, errHeaderWritten := true }
  else st

/-- Source lines 180-183: `if clean_fh: clean_fh.close()` and
`if err_fh: err_fh.close()`, reached only when the pass body completed
without raising. -/
def closeSinks (st : PassState) : PassState :=
  let st :=
    if st.cleanOpened then { st with cleanCloses := st.cleanCloses + 1 } else st
  if st.errOpened then { st with errCloses := st.errCloses + 1 } else st

/-- The loop body (source lines 147-178) for one data row at line `ln`.
Returns the state after the row together with `true` when a sink write raised
(exception propagating out of the loop; mutations before the raising write
have already happened, later ones have not). -/
def step (cfg : Config) (io : IOFail) (st : PassState) (ln : Nat)
    (row : List String) : PassState × Bool :=
  let st := { st with total := st.total + 1 }
  match validateRow row ln with
  | none =>
      let st := { st with valid := st.valid + 1 }
      if st.cleanOpened then
        if io.cleanFailAt = some st.cleanRows.length then (st, true)
        else ({ st with cleanRows := st.cleanRows ++ [row] }, false)
      else (st, false)
  | some (code, msg) =>
      let st := { st with errCounts := bump st.errCounts code }
      let st := { st with
        errSamples := addSample st.errSamples code cfg.samplePerType msg }
      let logRow : ErrLogRow :=
        ⟨ln, code, msg, row.getD 0 "", row.getD 1 "", row.getD 2 "", row.length⟩
      if st.errOpened then
        if io.errFailAt = some st.errRows.length then (st, true)
        else
          let st := { st with errRows := st.errRows ++ [logRow] }
          if st.printed < cfg.maxPrintErrors then
            ({ st with printed := st.printed + 1 }, false)
          else (st, false)
      else
        if st.printed < cfg.maxPrintErrors then
          ({ st with printed := st.printed + 1 }, false)
        else (st, false)

/-- The streaming loop `for line_no, row in enumerate(r, start=2)` (source
line 147), starting from line `ln`; stops early when a step raises. -/
def runPassFrom (cfg : Config) (io : IOFail) :
    Nat → PassState → List (List String) → PassState × Bool
  | _, st, [] => (st, false)
  | ln, st, row :: rest =>
      let p := step cfg io st ln row
      if p.2 then (p.1, true) else runPassFrom cfg io (ln + 1) p.1 rest

/-- The built-in default header (source line 12). -/
def EXPECTED_HEADER : List String := ["Unnamed: 0", "name", "frequency"]

/-- Source lines 102-107: the expected header is the sample file`s first
record when a sample file is configured and its first record is a non-empty
list, else the built-in default. `sampleHeader` is `none` when no sample file
is configured, `some h` when the sample`s first record reads as `h`
(`read_header` returns `[]` for an empty file). -/
def resolveExpectedHeader (sampleHeader : Option (List String)) : List String :=
  match sampleHeader with
  | some hdr => if hdr = [] then EXPECTED_HEADER else hdr
  | none => EXPECTED_HEADER

/-- The two fatal pre-pass conditions. -/
inductive FatalKind where
  | badEncoding
  | headerMismatch
deriving DecidableEq

/-- Result of one run of `validate_csv`: which fatal pre-pass condition
aborted it (if any), whether a sink I/O exception propagated out mid-pass,
and the final `PassState`. -/
structure RunResult where
  fatal : Option FatalKind
  ioError : Bool
  st : PassState

/-- `validate_csv` (source lines 85-207). `utf8Problem` is the result of
`check_utf8_streaming` (a host-library decode, modelled as an input);
`records` is the parsed record stream of the subject file, whose head is the
observed header; `sampleHeader` is as in `resolveExpectedHeader`. On a fatal
pre-pass condition the function prints and returns before any sink is opened;
otherwise the sinks are opened, the pass runs over `records.tail` from line 2,
and the sinks are closed only when the pass completed without raising (there
is no try/finally around source lines 144-183). -/
def validateCsv (io : IOFail) (utf8Problem : Option String)
    (records : List (List String)) (sampleHeader : Option (List String))
    (cfg : Config) : RunResult :=
  match utf8Problem with
  | some _ => ⟨some .badEncoding, false, initState⟩
  | none =>
      let expected := resolveExpectedHeader sampleHeader
      if records.head? ≠ some expected then
        ⟨some .headerMismatch, false, initState⟩
      else
        let p := runPassFrom cfg io 2 (openSinks cfg expected initState)
          records.tail
        if p.2 then ⟨none, true, p.1⟩ else ⟨none, false, closeSinks p.1⟩

/-- Completion status of the process: `main` (source lines 209-233) ignores
the result of `validate_csv` and never calls `sys.exit`, so the interpreter
exits 0 unless an exception (a sink I/O failure mid-pass) propagates out, in
which case the interpreter exits non-zero with a traceback. -/
def processExitCode (io : IOFail) (utf8Problem : Option String)
    (records : List (List String)) (sampleHeader : Option (List String))
    (cfg : Config) : Nat :=
  if (validateCsv io utf8Problem records sampleHeader cfg).ioError then 1 else 0

/-- The messages of the occurrences of kind `c` among `rows` (first row at
line `ln`), in line-number order, as classified by `validateRow`. -/
def errMessagesFrom (ln : Nat) (c : ErrCode) : List (List String) → List String
  | [] => []
  | row :: rest =>
      match validateRow row ln with
      | some (k, m) =>
          (if k = c then [m] else []) ++ errMessagesFrom (ln + 1) c rest
      | none => errMessagesFrom (ln + 1) c rest

/-- Sum of the per-kind counts over all `ErrCode`s. -/
def countSum (l : List (ErrCode × Nat)) : Nat :=
  (allKinds.map (lookupD l)).sum

lemma lookupD_bump (l : List (ErrCode × Nat)) (c k : ErrCode) :
    lookupD (bump l c) k = lookupD l k + (if k = c then 1 else 0) := by
  induction l with
  | nil =>
      by_cases h : k = c
      · subst h; simp [bump, lookupD]
      · have h' : ¬c = k := fun hh => h hh.symm
        simp [bump, lookupD, h, h']
  | cons p rest ih =>
      obtain ⟨k', v⟩ := p
      by_cases h1 : k' = c
      · subst h1
        by_cases h2 : k' = k
        · subst h2; simp [bump, lookupD]
        · have h3 : ¬k = k' := fun hh => h2 hh.symm
          simp [bump, lookupD, h2, h3]
      · by_cases h2 : k' = k
        · subst h2
          simp [bump, lookupD, h1]
        · simp [bump, lookupD, h1, h2, ih]

lemma mem_allKinds (c : ErrCode) : c ∈ allKinds := by
  cases c <;> simp [allKinds]

lemma countSum_bump (l : List (ErrCode × Nat)) (c : ErrCode) :
    countSum (bump l c) = countSum l + 1 := by
  unfold countSum allKinds
  simp only [List.map_cons, List.map_nil, List.sum_cons, List.sum_nil,
    lookupD_bump]
  cases c <;> simp <;> omega

lemma samplesOf_addSample_self (l : List (ErrCode × List String)) (c : ErrCode)
    (cap : Nat) (m : String) :
    samplesOf (addSample l c cap m) c =
      if (samplesOf l c).length < cap then samplesOf l c ++ [m]
      else samplesOf l c := by
  induction l with
  | nil =>
      by_cases h : 0 < cap <;> simp [addSample, samplesOf, slookup, h]
  | cons p rest ih =>
      obtain ⟨k, v⟩ := p
      by_cases h : k = c
      · subst h
        simp [addSample, samplesOf, slookup]
      · simpa [addSample, samplesOf, slookup, h] using ih

lemma samplesOf_addSample_other (l : List (ErrCode × List String))
    (k c : ErrCode) (cap : Nat) (m : String) (h : k ≠ c) :
    samplesOf (addSample l k cap m) c = samplesOf l c := by
  induction l with
  | nil => simp [addSample, samplesOf, slookup, h]
  | cons p rest ih =>
      obtain ⟨k', v⟩ := p
      by_cases h' : k' = k
      · subst h'
        simp [addSample, samplesOf, slookup, h, Ne.symm h]
      · by_cases h'' : k' = c
        · subst h''
          simp [addSample, samplesOf, slookup, h']
        · simpa [addSample, samplesOf, slookup, h', h''] using ih

/-- The four conditions of `validate_row`, stated without reference to the
line number: exactly 3 fields, integer index, non-blank name, nonnegative
integer frequency. -/
def validRowPred (row : List String) : Prop :=
  row.length = 3 ∧ (pyInt (row.getD 0 "")).isSome = true ∧
    pyStripChars ((row.getD 1 "").toList) ≠ [] ∧
    ∃ n : Int, pyInt (row.getD 2 "") = some n ∧ 0 ≤ n

lemma validateRow_none_iff (row : List String) (ln : Nat) :
    validateRow row ln = none ↔ validRowPred row := by
  by_cases h1 : row.length = 3
  · obtain ⟨a, b, c, rfl⟩ := List.length_eq_three.mp h1
    have e : validateRow [a, b, c] ln = checkFields a b c ln := by
      simp [validateRow]
    have e0 : ([a, b, c] : List String).getD 0 "" = a := rfl
    have e1 : ([a, b, c] : List String).getD 1 "" = b := rfl
    have e2 : ([a, b, c] : List String).getD 2 "" = c := rfl
    unfold validRowPred
    rw [e, e0, e1, e2]
    unfold checkFields
    simp only [List.length_cons, List.length_nil, String.toList]
    cases hx : pyInt a with
    | none => simp [hx]
    | some ni =>
        have hx' : (pyInt a).isSome = true := by rw [hx]; rfl
        have hxn : (pyInt a).isNone = false := by rw [hx]; rfl
        by_cases hb : pyStripChars b.data = []
        · simp [hxn, hx', hb]
        · cases hf : pyInt c with
          | none => simp [hxn, hx', hb, hf]
          | some nf =>
              by_cases hneg : nf < 0
              · simp [hb, hneg]
              · simp [hb, hneg]
                omega
  · simp [validateRow, validRowPred, h1]

/-- Validity of a row does not depend on the line number. -/
lemma validateRow_none_of_pred (row : List String) (ln : Nat)
    (h : validRowPred row) : validateRow row ln = none :=
  (validateRow_none_iff row ln).mpr h

/-- The sink-lifecycle fields of the state, untouched by the loop body. -/
def lifecycle (st : PassState) :
    Bool × Nat × List (List String) × Bool × Bool × Nat :=
  (st.cleanOpened, st.cleanCloses, st.cleanHeaders, st.errOpened,
    st.errHeaderWritten, st.errCloses)

lemma step_noFail_snd (cfg : Config) (st : PassState) (ln : Nat)
    (row : List String) : (step cfg noFail st ln row).2 = false := by
  cases hv : validateRow row ln with
  | none =>
      simp only [step, hv, noFail]
      split_ifs <;> simp_all
  | some p =>
      obtain ⟨c, m⟩ := p
      simp only [step, hv, noFail]
      split_ifs <;> simp_all

lemma step_counters (cfg : Config) (io : IOFail) (st : PassState) (ln : Nat)
    (row : List String) (h : st.valid + countSum st.errCounts = st.total) :
    (step cfg io st ln row).1.valid +
        countSum (step cfg io st ln row).1.errCounts =
      (step cfg io st ln row).1.total := by
  cases hv : validateRow row ln with
  | none =>
      simp only [step, hv]
      split_ifs <;> simp <;> omega
  | some p =>
      obtain ⟨c, m⟩ := p
      simp only [step, hv]
      split_ifs <;> simp [countSum_bump] <;> omega

lemma step_printed (cfg : Config) (io : IOFail) (st : PassState) (ln : Nat)
    (row : List String) (h : st.printed ≤ cfg.maxPrintErrors) :
    (step cfg io st ln row).1.printed ≤ cfg.maxPrintErrors := by
  cases hv : validateRow row ln with
  | none =>
      simp only [step, hv]
      split_ifs <;> simp <;> omega
  | some p =>
      obtain ⟨c, m⟩ := p
      simp only [step, hv]
      split_ifs <;> simp <;> omega

lemma step_lifecycle (cfg : Config) (io : IOFail) (st : PassState) (ln : Nat)
    (row : List String) : lifecycle (step cfg io st ln row).1 = lifecycle st := by
  cases hv : validateRow row ln with
  | none =>
      simp only [step, hv]
      split_ifs <;> rfl
  | some p =>
      obtain ⟨c, m⟩ := p
      simp only [step, hv]
      split_ifs <;> rfl

lemma step_cleanRows_valid (cfg : Config) (io : IOFail) (st : PassState)
    (ln : Nat) (row : List String)
    (h : ∀ r ∈ st.cleanRows, validRowPred r) :
    ∀ r ∈ (step cfg io st ln row).1.cleanRows, validRowPred r := by
  have hrow : validRowPred row ∨ (validateRow row ln).isSome = true := by
    cases hv : validateRow row ln with
    | none => exact Or.inl ((validateRow_none_iff row ln).mp hv)
    | some p => exact Or.inr rfl
  cases hv : validateRow row ln with
  | none =>
      have hp : validRowPred row := by
        rcases hrow with hp | hs
        · exact hp
        · rw [hv] at hs; cases hs
      simp only [step, hv]
      split_ifs with h1 h2
      · exact h
      · intro r hr
        simp only at hr
        rcases List.mem_append.mp hr with hr | hr
        · exact h r hr
        · rw [List.mem_singleton.mp hr]; exact hp
      · exact h
  | some p =>
      obtain ⟨c, m⟩ := p
      simp only [step, hv]
      split_ifs <;> exact h

lemma step_errSamples (cfg : Config) (io : IOFail) (st : PassState) (ln : Nat)
    (row : List String) :
    (step cfg io st ln row).1.errSamples =
      match validateRow row ln with
      | none => st.errSamples
      | some (c, m) => addSample st.errSamples c cfg.samplePerType m := by
  cases hv : validateRow row ln with
  | none =>
      simp only [step, hv]
      split_ifs <;> rfl
  | some p =>
      obtain ⟨c, m⟩ := p
      simp only [step, hv]
      split_ifs <;> rfl

lemma runPassFrom_noFail_snd (cfg : Config) :
    ∀ (rows : List (List String)) (ln : Nat) (st : PassState),
      (runPassFrom cfg noFail ln st rows).2 = false := by
  intro rows
  induction rows with
  | nil => intro ln st; rfl
  | cons row rest ih =>
      intro ln st
      simp only [runPassFrom]
      rw [step_noFail_snd]
      simpa using ih (ln + 1) (step cfg noFail st ln row).1

lemma runPassFrom_inv (cfg : Config) (io : IOFail) (P : PassState → Prop)
    (hstep : ∀ st ln row, P st → P (step cfg io st ln row).1) :
    ∀ (rows : List (List String)) (ln : Nat) (st : PassState),
      P st → P (runPassFrom cfg io ln st rows).1 := by
  intro rows
  induction rows with
  | nil => intro ln st h; exact h
  | cons row rest ih =>
      intro ln st h
      simp only [runPassFrom]
      by_cases hb : (step cfg io st ln row).2 = true
      · simp only [hb, if_true]
        exact hstep st ln row h
      · simp only [hb, if_false]
        exact ih (ln + 1) _ (hstep st ln row h)

lemma openSinks_data (cfg : Config) (eh : List String) (st : PassState) :
    (openSinks cfg eh st).total = st.total ∧
    (openSinks cfg eh st).valid = st.valid ∧
    (openSinks cfg eh st).errCounts = st.errCounts ∧
    (openSinks cfg eh st).errSamples = st.errSamples ∧
    (openSinks cfg eh st).printed = st.printed ∧
    (openSinks cfg eh st).cleanRows = st.cleanRows ∧
    (openSinks cfg eh st).errRows = st.errRows ∧
    (openSinks cfg eh st).cleanCloses = st.cleanCloses ∧
    (openSinks cfg eh st).errCloses = st.errCloses := by
  simp only [openSinks]
  split_ifs <;> simp

lemma closeSinks_data (st : PassState) :
    (closeSinks st).total = st.total ∧
    (closeSinks st).valid = st.valid ∧
    (closeSinks st).errCounts = st.errCounts ∧
    (closeSinks st).errSamples = st.errSamples ∧
    (closeSinks st).printed = st.printed ∧
    (closeSinks st).cleanRows = st.cleanRows ∧
    (closeSinks st).errRows = st.errRows ∧
    (closeSinks st).cleanOpened = st.cleanOpened ∧
    (closeSinks st).errOpened = st.errOpened ∧
    (closeSinks st).cleanHeaders = st.cleanHeaders ∧
    (closeSinks st).errHeaderWritten = st.errHeaderWritten := by
  simp only [closeSinks]
  split_ifs <;> simp

lemma closeSinks_closes (st : PassState) :
    (closeSinks st).cleanCloses =
      st.cleanCloses + (if st.cleanOpened then 1 else 0) ∧
    (closeSinks st).errCloses =
      st.errCloses + (if st.errOpened then 1 else 0) := by
  simp only [closeSinks]
  split_ifs <;> simp

lemma take_budget_append (v msgs : List String) (m : String) (cap : Nat) :
    (if v.length < cap then v ++ [m] else v) ++
      msgs.take (cap - (if v.length < cap then v ++ [m] else v).length) =
    v ++ ((m :: msgs).take (cap - v.length)) := by
  by_cases h : v.length < cap
  · have hl : (v ++ [m]).length = v.length + 1 := by simp
    have h2 : cap - v.length = (cap - (v.length + 1)) + 1 := by omega
    rw [if_pos h, hl, h2, List.take_succ_cons]
    simp
  · have h2 : cap - v.length = 0 := by omega
    rw [if_neg h, h2]
    simp

lemma runPassFrom_samples (cfg : Config) (c : ErrCode) :
    ∀ (rows : List (List String)) (ln : Nat) (st : PassState),
      samplesOf (runPassFrom cfg noFail ln st rows).1.errSamples c =
        samplesOf st.errSamples c ++
          (errMessagesFrom ln c rows).take
            (cfg.samplePerType - (samplesOf st.errSamples c).length) := by
  intro rows
  induction rows with
  | nil => intro ln st; simp [runPassFrom, errMessagesFrom]
  | cons row rest ih =>
      intro ln st
      simp only [runPassFrom]
      rw [step_noFail_snd]
      simp only [Bool.false_eq_true, if_false]
      cases hv : validateRow row ln with
      | none =>
          have hs : (step cfg noFail st ln row).1.errSamples = st.errSamples := by
            rw [step_errSamples, hv]
          rw [ih (ln + 1), hs]
          simp [errMessagesFrom, hv]
      | some p =>
          obtain ⟨k, m⟩ := p
          have hs : (step cfg noFail st ln row).1.errSamples =
              addSample st.errSamples k cfg.samplePerType m := by
            rw [step_errSamples, hv]
          rw [ih (ln + 1), hs]
          by_cases hk : k = c
          · subst hk
            rw [samplesOf_addSample_self]
            simp only [errMessagesFrom, hv, if_pos rfl, List.singleton_append]
            exact take_budget_append _ _ _ _
          · rw [samplesOf_addSample_other _ _ _ _ _ hk]
            simp [errMessagesFrom, hv, hk]

lemma runPassFrom_lifecycle (cfg : Config) (io : IOFail)
    (rows : List (List String)) (ln : Nat) (st : PassState) :
    lifecycle (runPassFrom cfg io ln st rows).1 = lifecycle st :=
  runPassFrom_inv cfg io (fun s => lifecycle s = lifecycle st)
    (fun s ln' row hs => (step_lifecycle cfg io s ln' row).trans hs) rows ln st rfl

/-- The `utf-8-sig` decode used by `open_text_utf8_strict` (source line 22):
a single leading byte-order-marker character is stripped; any other content is
decoded unchanged. -/
def stripBomChars : List Char → List Char
  | '\uFEFF' :: cs => cs
  | cs => cs

/-- First record of a csv text under the standard dialect (comma delimiter,
double-quote quoting, doubled quotes inside quoted fields); the record ends at
the first unquoted newline. Arguments: inside-quotes flag, remaining input,
current field, fields finished so far. Models what `csv.reader` yields as the
first record (source lines 112-113). -/
def parseRecord : Bool → List Char → List Char → List String → List String
  | _, [], field, acc => acc ++ [String.mk field]
  | true, '"' :: '"' :: cs, field, acc => parseRecord true cs (field ++ ['"']) acc
  | true, '"' :: cs, field, acc => parseRecord false cs field acc
  | true, ch :: cs, field, acc => parseRecord true cs (field ++ [ch]) acc
  | false, ',' :: cs, field, acc =>
      parseRecord false cs [] (acc ++ [String.mk field])
  | false, '"' :: cs, field, acc => parseRecord true cs field acc
  | false, '\n' :: _, field, acc => acc ++ [String.mk field]
  | false, '\r' :: _, field, acc => acc ++ [String.mk field]
  | false, ch :: cs, field, acc => parseRecord false cs (field ++ [ch]) acc

/-- `next(reader, None)` on the decoded text: `none` for an empty file,
`[]` for a leading blank line, otherwise the parsed first record. -/
def firstRecordChars : List Char → Option (List String)
  | [] => none
  | '\n' :: _ => some []
  | '\r' :: _ => some []
  | cs => some (parseRecord false cs [] [])

/-- The observed header as `validate_csv` reads it (source lines 111-113):
the subject file is decoded with `utf-8-sig` and its first csv record taken. -/
def readHeaderChars (content : List Char) : Option (List String) :=
  firstRecordChars (stripBomChars content)

lemma validateCsv_st_inv (P : PassState → Prop) (io : IOFail)
    (utf8p : Option String) (records : List (List String))
    (smp : Option (List String)) (cfg : Config)
    (hstep : ∀ st ln row, P st → P (step cfg io st ln row).1)
    (hinit : P initState)
    (hopen : ∀ eh st, P st → P (openSinks cfg eh st))
    (hclose : ∀ st, P st → P (closeSinks st)) :
    P (validateCsv io utf8p records smp cfg).st := by
  unfold validateCsv
  cases utf8p with
  | some p => exact hinit
  | none =>
      dsimp only
      by_cases hh : records.head? ≠ some (resolveExpectedHeader smp)
      · rw [if_pos hh]
        exact hinit
      · rw [if_neg hh]
        by_cases hio : (runPassFrom cfg io 2
            (openSinks cfg (resolveExpectedHeader smp) initState)
            records.tail).2 = true
        · rw [if_pos hio]
          exact runPassFrom_inv cfg io P hstep _ _ _ (hopen _ _ hinit)
        · rw [if_neg hio]
          exact hclose _ (runPassFrom_inv cfg io P hstep _ _ _ (hopen _ _ hinit))

lemma validateCsv_noFail_ioError (utf8p : Option String)
    (records : List (List String)) (smp : Option (List String)) (cfg : Config) :
    (validateCsv noFail utf8p records smp cfg).ioError = false := by
  unfold validateCsv
  cases utf8p with
  | some p => rfl
  | none =>
      dsimp only
      by_cases hh : records.head? ≠ some (resolveExpectedHeader smp)
      · rw [if_pos hh]
      · rw [if_neg hh, runPassFrom_noFail_snd]
        simp

/-- Claim C1: for every record and 1-based line number, `validate_row`
applies exactly four checks in the fixed order fields_count (length exactly
3), idx_not_int (field 0 parses as int), name_empty (field 1 non-blank after
stripping), freq_not_int / freq_negative (field 2 parses as int and is
nonnegative); it short-circuits at the first failing rule — a record failing
the length check is classified fields_count regardless of its fields — and
returns no error exactly when all four checks pass. -/
theorem validateRow_fixed_order (row : List String) (ln : Nat) :
    (row.length ≠ 3 →
      (validateRow row ln).map Prod.fst = some .fields_count) ∧
    (row.length = 3 → pyInt (row.getD 0 "") = none →
      (validateRow row ln).map Prod.fst = some .idx_not_int) ∧
    (row.length = 3 → (pyInt (row.getD 0 "")).isSome = true →
      pyStripChars ((row.getD 1 "").toList) = [] →
      (validateRow row ln).map Prod.fst = some .name_empty) ∧
    (row.length = 3 → (pyInt (row.getD 0 "")).isSome = true →
      pyStripChars ((row.getD 1 "").toList) ≠ [] →
      pyInt (row.getD 2 "") = none →
      (validateRow row ln).map Prod.fst = some .freq_not_int) ∧
    (∀ n : Int, row.length = 3 → (pyInt (row.getD 0 "")).isSome = true →
      pyStripChars ((row.getD 1 "").toList) ≠ [] →
      pyInt (row.getD 2 "") = some n → n < 0 →
      (validateRow row ln).map Prod.fst = some .freq_negative) ∧
    (validateRow row ln = none ↔ validRowPred row) := by
  refine ⟨?_, ?_, ?_, ?_, ?_, validateRow_none_iff row ln⟩
  · intro h
    simp [validateRow, h]
  · intro hl hx
    obtain ⟨a, b, c, rfl⟩ := List.length_eq_three.mp hl
    have hx' : pyInt a = none := hx
    simp [validateRow, checkFields, hx']
  · intro hl hx hb
    obtain ⟨a, b, c, rfl⟩ := List.length_eq_three.mp hl
    have hx' : (pyInt a).isSome = true := hx
    have hb2 : pyStripChars b.data = [] := hb
    obtain ⟨ni, hni⟩ := Option.isSome_iff_exists.mp hx'
    simp [validateRow, checkFields, hni, hb2, String.toList]
  · intro hl hx hb hf
    obtain ⟨a, b, c, rfl⟩ := List.length_eq_three.mp hl
    have hx' : (pyInt a).isSome = true := hx
    have hb2 : ¬pyStripChars b.data = [] := hb
    have hf' : pyInt c = none := hf
    obtain ⟨ni, hni⟩ := Option.isSome_iff_exists.mp hx'
    simp [validateRow, checkFields, hni, hb2, hf', String.toList]
  · intro n hl hx hb hf hneg
    obtain ⟨a, b, c, rfl⟩ := List.length_eq_three.mp hl
    have hx' : (pyInt a).isSome = true := hx
    have hb2 : ¬pyStripChars b.data = [] := hb
    have hf' : pyInt c = some n := hf
    obtain ⟨ni, hni⟩ := Option.isSome_iff_exists.mp hx'
    simp [validateRow, checkFields, hni, hb2, hf', hneg, String.toList]

/-- Witness for C1: the fifth check fires on a concrete negative frequency,
and a concrete fully-valid row is classified valid. -/
theorem validateRow_fixed_order_witness :
    (validateRow ["7", "x", "-1"] 9).map Prod.fst = some .freq_negative ∧
    validateRow ["7", "x", "1"] 9 = none := by
  constructor
  · exact (validateRow_fixed_order ["7", "x", "-1"] 9).2.2.2.2.1 (-1)
      (by decide) (by decide) (by decide) (by decide) (by decide)
  · exact (validateRow_fixed_order ["7", "x", "1"] 9).2.2.2.2.2.mpr
      ⟨by decide, by decide, by decide, 1, by decide, by decide⟩

/-- Claim C10: `validate_row` is total over its public interface — for every
list of field strings of any length and every line number the literal
embedding (with fallible tuple unpacking) returns a classification without
raising: the unpacking of fields 0-2 never fails because the field-count
check runs first. -/
theorem validateRow_total (row : List String) (ln : Nat) :
    validateRowChecked row ln = some (validateRow row ln) := by
  by_cases h : row.length = 3
  · obtain ⟨a, b, c, rfl⟩ := List.length_eq_three.mp h
    rfl
  · simp [validateRow, validateRowChecked, h]

/-- Claim C2: at every point during the streaming pass — `records` ranges
over all inputs, so every prefix, and `io` ranges over all mid-pass I/O
failure points, so every intermediate exit state — the run counters satisfy
valid + sum over all ErrorKinds of the per-kind counts = total. -/
theorem counters_invariant (io : IOFail) (utf8Problem : Option String)
    (records : List (List String)) (sampleHeader : Option (List String))
    (cfg : Config) :
    (validateCsv io utf8Problem records sampleHeader cfg).st.valid +
      countSum (validateCsv io utf8Problem records sampleHeader cfg).st.errCounts =
      (validateCsv io utf8Problem records sampleHeader cfg).st.total := by
  refine validateCsv_st_inv
    (fun st => st.valid + countSum st.errCounts = st.total)
    io utf8Problem records sampleHeader cfg
    (fun st ln row h => step_counters cfg io st ln row h)
    (by decide) ?_ ?_
  · intro eh st h
    obtain ⟨h1, h2, h3, -⟩ := openSinks_data cfg eh st
    rw [h1, h2, h3]
    exact h
  · intro st h
    obtain ⟨h1, h2, h3, -⟩ := closeSinks_data st
    rw [h1, h2, h3]
    exact h

/-- Claim C5: the number of per-record error messages printed to the console
never exceeds the configured global budget `max_print_errors`, for every
input, every failure point and every configuration (so independent of the
per-kind sample cap and shared across all kinds). -/
theorem print_budget_bound (io : IOFail) (utf8Problem : Option String)
    (records : List (List String)) (sampleHeader : Option (List String))
    (cfg : Config) :
    (validateCsv io utf8Problem records sampleHeader cfg).st.printed ≤
      cfg.maxPrintErrors := by
  refine validateCsv_st_inv (fun st => st.printed ≤ cfg.maxPrintErrors)
    io utf8Problem records sampleHeader cfg
    (fun st ln row h => step_printed cfg io st ln row h)
    (Nat.zero_le _) ?_ ?_
  · intro eh st h
    obtain ⟨-, -, -, -, h5, -⟩ := openSinks_data cfg eh st
    rw [h5]
    exact h
  · intro st h
    obtain ⟨-, -, -, -, h5, -⟩ := closeSinks_data st
    rw [h5]
    exact h

/-- Claim C6: every data record present in the clean-copy output (forwarded
verbatim for each valid input record), re-validated by the Record Validator
in isolation at any line number, classifies as valid. -/
theorem clean_copy_revalidates (io : IOFail) (utf8Problem : Option String)
    (records : List (List String)) (sampleHeader : Option (List String))
    (cfg : Config) (r : List String)
    (hr : r ∈ (validateCsv io utf8Problem records sampleHeader cfg).st.cleanRows)
    (ln : Nat) :
    validateRow r ln = none := by
  have h := validateCsv_st_inv (fun st => ∀ x ∈ st.cleanRows, validRowPred x)
    io utf8Problem records sampleHeader cfg
    (fun st ln' row h => step_cleanRows_valid cfg io st ln' row h)
    (by intro x hx; simp [initState] at hx) ?_ ?_
  · exact validateRow_none_of_pred r ln (h r hr)
  · intro eh st hp
    obtain ⟨-, -, -, -, -, h6, -⟩ := openSinks_data cfg eh st
    rw [h6]
    exact hp
  · intro st hp
    obtain ⟨-, -, -, -, -, h6, -⟩ := closeSinks_data st
    rw [h6]
    exact hp

/-- Witness for C6: a concrete run with one valid record puts it in the
clean-copy sink, and the theorem re-validates it at an unrelated line
number. -/
theorem clean_copy_revalidates_witness :
    validateRow ["1", "a", "2"] 99 = none := by
  have hmem : ["1", "a", "2"] ∈
      (validateCsv noFail none [EXPECTED_HEADER, ["1", "a", "2"]] none
        ⟨true, false, 5, 50⟩).st.cleanRows := by decide
  exact clean_copy_revalidates noFail none [EXPECTED_HEADER, ["1", "a", "2"]]
    none ⟨true, false, 5, 50⟩ ["1", "a", "2"] hmem 99

/-- Claim C3: if the observed header (the subject file`s first record)
differs from the expected header in any position, the run aborts: a fatal
condition is recorded, no data row is validated (total and valid are 0), and
nothing — not even a header row — is written to the clean-copy or error-log
sinks. -/
theorem header_mismatch_aborts (io : IOFail) (utf8Problem : Option String)
    (records : List (List String)) (sampleHeader : Option (List String))
    (cfg : Config)
    (h : records.head? ≠ some (resolveExpectedHeader sampleHeader)) :
    (validateCsv io utf8Problem records sampleHeader cfg).fatal.isSome = true ∧
    (validateCsv io utf8Problem records sampleHeader cfg).st.total = 0 ∧
    (validateCsv io utf8Problem records sampleHeader cfg).st.valid = 0 ∧
    (validateCsv io utf8Problem records sampleHeader cfg).st.cleanHeaders = [] ∧
    (validateCsv io utf8Problem records sampleHeader cfg).st.cleanRows = [] ∧
    (validateCsv io utf8Problem records sampleHeader cfg).st.errHeaderWritten
      = false ∧
    (validateCsv io utf8Problem records sampleHeader cfg).st.errRows = [] := by
  unfold validateCsv
  cases utf8Problem with
  | some p => exact ⟨rfl, rfl, rfl, rfl, rfl, rfl, rfl⟩
  | none =>
      dsimp only
      rw [if_pos h]
      exact ⟨rfl, rfl, rfl, rfl, rfl, rfl, rfl⟩

/-- Witness for C3: a concrete two-column header aborts against the built-in
three-column expected header with nothing validated or written. -/
theorem header_mismatch_aborts_witness :
    (validateCsv noFail none [["a", "b"]] none ⟨true, true, 5, 50⟩).fatal.isSome
      = true ∧
    (validateCsv noFail none [["a", "b"]] none ⟨true, true, 5, 50⟩).st.total = 0 ∧
    (validateCsv noFail none [["a", "b"]] none ⟨true, true, 5, 50⟩).st.valid = 0 ∧
    (validateCsv noFail none [["a", "b"]] none ⟨true, true, 5, 50⟩).st.cleanHeaders
      = [] ∧
    (validateCsv noFail none [["a", "b"]] none ⟨true, true, 5, 50⟩).st.cleanRows
      = [] ∧
    (validateCsv noFail none [["a", "b"]] none
      ⟨true, true, 5, 50⟩).st.errHeaderWritten = false ∧
    (validateCsv noFail none [["a", "b"]] none ⟨true, true, 5, 50⟩).st.errRows
      = [] :=
  header_mismatch_aborts noFail none [["a", "b"]] none ⟨true, true, 5, 50⟩
    (by decide)

/-- Claim C4: for any ErrorKind occurring at least K times (K the configured
`sample_per_type`), the sample set kept for that kind has exactly K entries,
equal to the messages of the first K occurrences in line-number order; later
occurrences never extend it. -/
theorem sample_cap_first_K (utf8Problem : Option String)
    (records : List (List String)) (sampleHeader : Option (List String))
    (cfg : Config) (c : ErrCode)
    (hu : utf8Problem = none)
    (hh : records.head? = some (resolveExpectedHeader sampleHeader))
    (hk : cfg.samplePerType ≤ (errMessagesFrom 2 c records.tail).length) :
    samplesOf (validateCsv noFail utf8Problem records sampleHeader
        cfg).st.errSamples c =
      (errMessagesFrom 2 c records.tail).take cfg.samplePerType ∧
    (samplesOf (validateCsv noFail utf8Problem records sampleHeader
        cfg).st.errSamples c).length = cfg.samplePerType := by
  subst hu
  have hne : ¬records.head? ≠ some (resolveExpectedHeader sampleHeader) := by
    simp [hh]
  have hmain : samplesOf (validateCsv noFail none records sampleHeader
      cfg).st.errSamples c =
      (errMessagesFrom 2 c records.tail).take cfg.samplePerType := by
    unfold validateCsv
    dsimp only
    rw [if_neg hne, runPassFrom_noFail_snd]
    simp only [Bool.false_eq_true, if_false]
    rw [(closeSinks_data _).2.2.2.1]
    rw [runPassFrom_samples cfg c records.tail 2 _]
    have ho : (openSinks cfg (resolveExpectedHeader sampleHeader)
        initState).errSamples = [] := by
      rw [(openSinks_data _ _ _).2.2.2.1]
      rfl
    rw [ho]
    simp [samplesOf, slookup]
  refine ⟨hmain, ?_⟩
  rw [hmain, List.length_take]
  omega

/-- Witness for C4: two concrete field-count failures with sample cap 1 keep
exactly the first message. -/
theorem sample_cap_first_K_witness :
    samplesOf (validateCsv noFail none [EXPECTED_HEADER, [], []] none
        ⟨false, false, 1, 50⟩).st.errSamples .fields_count =
      (errMessagesFrom 2 .fields_count [[], []]).take 1 ∧
    (samplesOf (validateCsv noFail none [EXPECTED_HEADER, [], []] none
        ⟨false, false, 1, 50⟩).st.errSamples .fields_count).length = 1 :=
  sample_cap_first_K none [EXPECTED_HEADER, [], []] none ⟨false, false, 1, 50⟩
    .fields_count rfl (by decide) (by decide)

/-- Counterexample to C7 as stated: on a concrete header-mismatch input the
run aborts with the header-mismatch diagnostic, yet the completion status is
0, not non-zero — `validate_csv` returns normally and `main` never calls
`sys.exit`. -/
theorem completion_status_counterexample :
    (validateCsv noFail none [["a", "b"]] none ⟨false, false, 5, 50⟩).fatal =
      some .headerMismatch ∧
    processExitCode noFail none [["a", "b"]] none ⟨false, false, 5, 50⟩ = 0 := by
  decide

/-- Claim C7 (amended): a fatal pre-pass condition (encoding failure or
header mismatch) produces a single-cause diagnostic and aborts the run, but
the completion status is 0 — the same as for any run without a mid-pass sink
I/O exception, in particular for runs in which every record is invalid:
per-record validation errors never change the completion status. -/
theorem completion_status_amended (utf8Problem : Option String)
    (records : List (List String)) (sampleHeader : Option (List String))
    (cfg : Config) :
    processExitCode noFail utf8Problem records sampleHeader cfg = 0 ∧
    (utf8Problem.isSome = true →
      (validateCsv noFail utf8Problem records sampleHeader cfg).fatal =
        some .badEncoding) ∧
    (utf8Problem = none →
      records.head? ≠ some (resolveExpectedHeader sampleHeader) →
      (validateCsv noFail utf8Problem records sampleHeader cfg).fatal =
        some .headerMismatch) := by
  refine ⟨?_, ?_, ?_⟩
  · unfold processExitCode
    rw [validateCsv_noFail_ioError]
    rfl
  · intro hs
    obtain ⟨p, hp⟩ := Option.isSome_iff_exists.mp hs
    subst hp
    rfl
  · intro hu hh
    subst hu
    unfold validateCsv
    dsimp only
    rw [if_pos hh]

/-- Witness for C7 (amended): concrete instantiations of both fatal kinds and
of an all-invalid run, each completing with status 0. -/
theorem completion_status_amended_witness :
    processExitCode noFail (some "bad byte") [] none ⟨false, false, 5, 50⟩ = 0 ∧
    (validateCsv noFail (some "bad byte") [] none
      ⟨false, false, 5, 50⟩).fatal = some .badEncoding ∧
    processExitCode noFail none [EXPECTED_HEADER, [], []] none
      ⟨false, false, 5, 50⟩ = 0 ∧
    (validateCsv noFail none [["a", "b"]] none ⟨false, false, 5, 50⟩).fatal =
      some .headerMismatch := by
  refine ⟨?_, ?_, ?_, ?_⟩
  · exact (completion_status_amended (some "bad byte") [] none
      ⟨false, false, 5, 50⟩).1
  · exact (completion_status_amended (some "bad byte") [] none
      ⟨false, false, 5, 50⟩).2.1 rfl
  · exact (completion_status_amended none [EXPECTED_HEADER, [], []] none
      ⟨false, false, 5, 50⟩).1
  · exact (completion_status_amended none [["a", "b"]] none
      ⟨false, false, 5, 50⟩).2.2 rfl (by decide)

lemma lifecycle_eq_iff (s t : PassState) :
    lifecycle s = lifecycle t ↔
      (s.cleanOpened = t.cleanOpened ∧ s.cleanCloses = t.cleanCloses ∧
       s.cleanHeaders = t.cleanHeaders ∧ s.errOpened = t.errOpened ∧
       s.errHeaderWritten = t.errHeaderWritten ∧ s.errCloses = t.errCloses) := by
  simp [lifecycle, Prod.ext_iff]

lemma openSinks_initState (cfg : Config) (eh : List String) :
    (openSinks cfg eh initState).cleanOpened = cfg.outClean ∧
    (openSinks cfg eh initState).errOpened = cfg.errorsOut ∧
    (openSinks cfg eh initState).cleanHeaders =
      (if cfg.outClean then [eh] else []) ∧
    (openSinks cfg eh initState).errHeaderWritten = cfg.errorsOut ∧
    (openSinks cfg eh initState).cleanCloses = 0 ∧
    (openSinks cfg eh initState).errCloses = 0 := by
  simp only [openSinks, initState]
  cases hc : cfg.outClean <;> cases he : cfg.errorsOut <;> simp

/-- Counterexample to C8 as stated: with the clean-copy sink enabled and a
concrete run whose first clean-copy write raises, the exception propagates
with the sink still open and never closed — there is no try/finally around
the pass, so the "closed exactly once on every exit path" clause fails. -/
theorem sinks_close_counterexample :
    (validateCsv ⟨some 0, none⟩ none [EXPECTED_HEADER, ["1", "a", "2"]] none
        ⟨true, false, 5, 50⟩).ioError = true ∧
    (validateCsv ⟨some 0, none⟩ none [EXPECTED_HEADER, ["1", "a", "2"]] none
        ⟨true, false, 5, 50⟩).st.cleanOpened = true ∧
    (validateCsv ⟨some 0, none⟩ none [EXPECTED_HEADER, ["1", "a", "2"]] none
        ⟨true, false, 5, 50⟩).st.cleanCloses = 0 := by
  decide

/-- Claim C8 (amended): if enabled, the clean-copy and error-log sinks are
opened before the pass begins with their header rows written immediately,
and when the pass completes without a sink I/O failure each opened sink is
closed exactly once; but on a mid-pass sink I/O failure the exception
propagates without any close — the sinks are left unclosed. -/
theorem sinks_lifecycle_amended (io : IOFail) (utf8Problem : Option String)
    (records : List (List String)) (sampleHeader : Option (List String))
    (cfg : Config) :
    ((validateCsv io utf8Problem records sampleHeader cfg).fatal = none →
     (validateCsv io utf8Problem records sampleHeader cfg).ioError = false →
      ((validateCsv io utf8Problem records sampleHeader cfg).st.cleanOpened
          = cfg.outClean ∧
       (validateCsv io utf8Problem records sampleHeader cfg).st.errOpened
          = cfg.errorsOut ∧
       (validateCsv io utf8Problem records sampleHeader cfg).st.cleanHeaders
          = (if cfg.outClean then [resolveExpectedHeader sampleHeader]
             else []) ∧
       (validateCsv io utf8Problem records sampleHeader cfg).st.errHeaderWritten
          = cfg.errorsOut ∧
       (validateCsv io utf8Problem records sampleHeader cfg).st.cleanCloses
          = (if cfg.outClean then 1 else 0) ∧
       (validateCsv io utf8Problem records sampleHeader cfg).st.errCloses
          = (if cfg.errorsOut then 1 else 0))) ∧
    ((validateCsv io utf8Problem records sampleHeader cfg).ioError = true →
      (validateCsv io utf8Problem records sampleHeader cfg).st.cleanCloses = 0 ∧
      (validateCsv io utf8Problem records sampleHeader cfg).st.errCloses = 0) := by
  unfold validateCsv
  cases utf8Problem with
  | some p =>
      exact ⟨fun hf _ => Option.noConfusion hf, fun hio => Bool.noConfusion hio⟩
  | none =>
      dsimp only
      by_cases hh : records.head? ≠ some (resolveExpectedHeader sampleHeader)
      · rw [if_pos hh]
        exact ⟨fun hf _ => Option.noConfusion hf,
          fun hio => Bool.noConfusion hio⟩
      · rw [if_neg hh]
        have hlc := runPassFrom_lifecycle cfg io records.tail 2
          (openSinks cfg (resolveExpectedHeader sampleHeader) initState)
        rw [lifecycle_eq_iff] at hlc
        obtain ⟨e1, e2, e3, e4, e5, e6⟩ := hlc
        have hopen := openSinks_initState cfg (resolveExpectedHeader sampleHeader)
        by_cases hio : (runPassFrom cfg io 2
            (openSinks cfg (resolveExpectedHeader sampleHeader) initState)
            records.tail).2 = true
        · rw [if_pos hio]
          refine ⟨fun _ hE => Bool.noConfusion hE, fun _ => ⟨?_, ?_⟩⟩
          · rw [e2]
            exact hopen.2.2.2.2.1
          · rw [e6]
            exact hopen.2.2.2.2.2
        · rw [if_neg hio]
          refine ⟨fun _ _ => ?_, fun hE => Bool.noConfusion hE⟩
          obtain ⟨hc1, hc2⟩ := closeSinks_closes (runPassFrom cfg io 2
            (openSinks cfg (resolveExpectedHeader sampleHeader) initState)
            records.tail).1
          obtain ⟨-, -, -, -, -, -, -, hc8, hc9, hc10, hc11⟩ :=
            closeSinks_data (runPassFrom cfg io 2
              (openSinks cfg (resolveExpectedHeader sampleHeader) initState)
              records.tail).1
          refine ⟨?_, ?_, ?_, ?_, ?_, ?_⟩
          · rw [hc8, e1]
            exact hopen.1
          · rw [hc9, e4]
            exact hopen.2.1
          · rw [hc10, e3]
            exact hopen.2.2.1
          · rw [hc11, e5]
            exact hopen.2.2.2.1
          · rw [hc1, e2, e1, hopen.2.2.2.2.1, hopen.1]
            cases cfg.outClean <;> simp
          · rw [hc2, e6, e4, hopen.2.2.2.2.2, hopen.2.1]
            cases cfg.errorsOut <;> simp

/-- Witness for C8 (amended): a concrete normal run with both sinks enabled
closes each exactly once. -/
theorem sinks_lifecycle_amended_witness :
    (validateCsv noFail none [EXPECTED_HEADER] none
        ⟨true, true, 5, 50⟩).st.cleanCloses = 1 ∧
    (validateCsv noFail none [EXPECTED_HEADER] none
        ⟨true, true, 5, 50⟩).st.errCloses = 1 := by
  have h := (sinks_lifecycle_amended noFail none [EXPECTED_HEADER] none
    ⟨true, true, 5, 50⟩).1 (by decide) (by decide)
  exact ⟨by rw [h.2.2.2.2.1]; rfl, by rw [h.2.2.2.2.2]; rfl⟩

/-- Counterexample to C9 as stated: for a concrete input whose text begins
with a UTF-8 BOM, the observed header parses with the BOM stripped — the
first field is "Unnamed: 0" without the BOM character — because
`open_text_utf8_strict` decodes with `utf-8-sig`. -/
theorem bom_counterexample :
    readHeaderChars ("\uFEFFUnnamed: 0,name,frequency\n1,a,2\n".toList) =
      some ["Unnamed: 0", "name", "frequency"] ∧
    readHeaderChars ("\uFEFFUnnamed: 0,name,frequency\n1,a,2\n".toList) ≠
      some ["\uFEFFUnnamed: 0", "name", "frequency"] := by
  decide

/-- Claim C9 (amended): when reading the subject file a leading byte-order
marker IS stripped automatically (the file is opened with the `utf-8-sig`
codec), so the observed header of a file whose text begins with a UTF-8 BOM
is exactly the header of the same text without the BOM; the BOM character is
never part of the observed header`s first field. -/
theorem bom_stripped_amended (cs : List Char) :
    readHeaderChars ('\uFEFF' :: cs) = firstRecordChars cs := rfl
